import Mathlib

/-!
Verification development for the Sentinel Mesh smart-contract engine
(`src/core/contracts.py`).

Modelling conventions:
- Python floats (timestamps, confidence scores, thresholds) are modelled as
  rationals `ℚ`; the claims under study only involve order comparisons and
  additions, for which ℚ is a faithful abstraction of the float values used.
- The Python `set` of blocked IPs is a `Finset String`; the Python `dict`
  mapping IP to limit-until timestamp is an insertion-ordered association
  list with overwrite-in-place semantics, as Python dicts have.
- `time.time()` is abstracted to a single evaluation instant `current_time`
  passed as a parameter and threaded to the action executor; `print` calls
  are no-ops with no modelled effect.
- `round(confidence, 4)` is modelled as rounding to 4 decimal digits on ℚ;
  none of the verified properties depend on tie-breaking behaviour.
-/

namespace SentinelMesh

attribute [local semireducible] Rat.add Rat.sub Rat.mul Rat.inv Rat.ofScientific

/-- Python enum `ActionType` (contracts.py lines 17-22). -/
inductive ActionType where
  | BLOCK_IP
  | RATE_LIMIT
  | QUARANTINE
  | ALERT_NETWORK
deriving DecidableEq, Repr

/-- Python `ActionType.value` (the enum string payload). -/
def ActionType.value : ActionType → String
  | .BLOCK_IP => "BLOCK_IP"
  | .RATE_LIMIT => "RATE_LIMIT"
  | .QUARANTINE => "QUARANTINE"
  | .ALERT_NETWORK => "ALERT_NETWORK"

/-- Python enum `TriggerType` (contracts.py lines 25-29). -/
inductive TriggerType where
  | ANOMALY_DETECTED
  | HIGH_CONFIDENCE
  | REPEATED_OFFENSE
deriving DecidableEq, Repr

/-- Python dataclass `Contract` (contracts.py lines 32-51). -/
structure Contract where
  name : String
  action : ActionType
  trigger : TriggerType
  threshold : ℚ
  cooldown : ℤ
  enabled : Bool
  last_triggered : ℚ
deriving DecidableEq, Repr

/-- The `details` dict built by `_execute_action` (contracts.py lines 152-156
and the per-branch `details["message"]` assignments). -/
structure Details where
  source_ip : String
  confidence : ℚ
  simulated : Bool
  message : String
deriving DecidableEq, Repr

/-- Python dataclass `ExecutedAction` (contracts.py lines 54-60). -/
structure ExecutedAction where
  contract_name : String
  action : ActionType
  timestamp : ℚ
  details : Details
deriving DecidableEq, Repr

/-- The mutable state of `ContractEngine` (contracts.py lines 71-102). -/
structure ContractEngine where
  contracts : List Contract
  action_history : List ExecutedAction
  blocked_ips : Finset String
  rate_limited : List (String × ℚ)
deriving DecidableEq

/-- Python dict assignment `m[k] = v`: overwrite in place if the key is
present, otherwise append at the end (Python dicts preserve insertion
order and keep the original position on overwrite). -/
def dictInsert (m : List (String × ℚ)) (k : String) (v : ℚ) : List (String × ℚ) :=
  if m.any (fun p => decide (p.1 = k)) then
    m.map (fun p => if p.1 = k then (k, v) else p)
  else m ++ [(k, v)]

/-- Python dict lookup `m.get(k)`. -/
def dictGet (m : List (String × ℚ)) (k : String) : Option ℚ :=
  (m.find? (fun p => decide (p.1 = k))).map (fun p => p.2)

/-- Whether the character list `hay` starts with the character list `pat`. -/
def startsWith : List Char → List Char → Bool
  | _, [] => true
  | [], _ :: _ => false
  | a :: hs, b :: ps => a == b && startsWith hs ps

/-- Whether `pat` occurs as a contiguous sublist of the second argument. -/
def hasSub (pat : List Char) : List Char → Bool
  | [] => pat.isEmpty
  | a :: t => startsWith (a :: t) pat || hasSub pat t

/-- Python substring test `pat in s` on strings (case-sensitive). -/
def pyIn (pat s : String) : Bool := hasSub pat.data s.data

/-- Rounding to 4 decimal digits, modelling Python `round(confidence, 4)`
(Python rounds float ties to even; no verified property depends on ties). -/
def round4 (q : ℚ) : ℚ := (round (q * 10000) : ℤ) / 10000

/-- The `ExecutedAction` built by `_execute_action` (contracts.py lines
152-156, the per-branch `details["message"]` strings, and the constructor
call at lines 176-181). The record does not depend on the side-effect
stores. -/
def execRecord (c : Contract) (source_ip : String) (confidence now : ℚ) : ExecutedAction :=
  { contract_name := c.name
    action := c.action
    timestamp := now
    details :=
      { source_ip := source_ip
        confidence := round4 confidence
        simulated := true
        message :=
          match c.action with
          | ActionType.BLOCK_IP => "IP " ++ source_ip ++ " added to blocklist"
          | ActionType.RATE_LIMIT => "IP " ++ source_ip ++ " rate limited for 5 minutes"
          | ActionType.QUARANTINE => "Traffic from " ++ source_ip ++ " quarantined for analysis"
          | ActionType.ALERT_NETWORK => "Alert broadcasted to all peer nodes" } }

/-- Python `ContractEngine._execute_action` (contracts.py lines 143-181):
dispatch on the contract's action, mutate the blocklist or the rate-limit
map accordingly, and return the execution record. `print` is a no-op. -/
def execute_action (blocked : Finset String) (rate_limited : List (String × ℚ))
    (c : Contract) (source_ip : String) (confidence now : ℚ) :
    Finset String × List (String × ℚ) × ExecutedAction :=
  match c.action with
  | ActionType.BLOCK_IP =>
      (insert source_ip blocked, rate_limited, execRecord c source_ip confidence now)
  | ActionType.RATE_LIMIT =>
      (blocked, dictInsert rate_limited source_ip (now + 300), execRecord c source_ip confidence now)
  | ActionType.QUARANTINE =>
      (blocked, rate_limited, execRecord c source_ip confidence now)
  | ActionType.ALERT_NETWORK =>
      (blocked, rate_limited, execRecord c source_ip confidence now)

/-- The trigger-matching test of `evaluate` (contracts.py lines 128-132):
`ANOMALY_DETECTED` matches when the alert type contains the substring
"ANOMALY"; `HIGH_CONFIDENCE` matches when `confidence > threshold`
(strict); no branch exists for `REPEATED_OFFENSE`. -/
def trigger_matched (c : Contract) (alert_type : String) (confidence : ℚ) : Bool :=
  (decide (c.trigger = TriggerType.ANOMALY_DETECTED) && pyIn "ANOMALY" alert_type)
    || (decide (c.trigger = TriggerType.HIGH_CONFIDENCE) && decide (c.threshold < confidence))

/-- State at the sequence point between line 136 (the `_execute_action`
call has returned: the side-effect stores are updated and the record is
built) and line 137 (the `last_triggered` stamp): the contract itself is
still unchanged at this point. Components: blocklist, rate-limit map,
record, contract. -/
def fireMid (blocked : Finset String) (rate_limited : List (String × ℚ))
    (c : Contract) (source_ip : String) (confidence now : ℚ) :
    Finset String × List (String × ℚ) × ExecutedAction × Contract :=
  let r := execute_action blocked rate_limited c source_ip confidence now
  (r.1, r.2.1, r.2.2, c)

/-- Lines 136-137 of `evaluate` combined: execute the action, then stamp
`contract.last_triggered = current_time`. -/
def fireDone (blocked : Finset String) (rate_limited : List (String × ℚ))
    (c : Contract) (source_ip : String) (confidence now : ℚ) :
    Finset String × List (String × ℚ) × ExecutedAction × Contract :=
  let m := fireMid blocked rate_limited c source_ip confidence now
  (m.1, m.2.1, m.2.2.1, { m.2.2.2 with last_triggered := now })

/-- The `for contract in self.contracts` loop of `evaluate` (contracts.py
lines 119-139), threading the blocklist, the rate-limit map, the action
history and the `executed` accumulator, and rebuilding the (in-place
mutated) contract list. Result components: contracts, blocklist,
rate-limit map, history, executed. -/
def evalLoop (now : ℚ) (alert_type : String) (confidence : ℚ) (source_ip : String) :
    List Contract → Finset String → List (String × ℚ) →
    List ExecutedAction → List ExecutedAction →
      List Contract × Finset String × List (String × ℚ) ×
        List ExecutedAction × List ExecutedAction
  | [], blocked, rl, hist, ex => ([], blocked, rl, hist, ex)
  | c :: rest, blocked, rl, hist, ex =>
    if c.enabled = false then
      let r := evalLoop now alert_type confidence source_ip rest blocked rl hist ex
      (c :: r.1, r.2)
    else if now - c.last_triggered < (c.cooldown : ℚ) then
      let r := evalLoop now alert_type confidence source_ip rest blocked rl hist ex
      (c :: r.1, r.2)
    else if trigger_matched c alert_type confidence = true ∧ c.threshold ≤ confidence then
      let f := fireDone blocked rl c source_ip confidence now
      let r := evalLoop now alert_type confidence source_ip rest f.1 f.2.1
        (hist ++ [f.2.2.1]) (ex ++ [f.2.2.1])
      (f.2.2.2 :: r.1, r.2)
    else
      let r := evalLoop now alert_type confidence source_ip rest blocked rl hist ex
      (c :: r.1, r.2)

/-- Python `ContractEngine.evaluate` (contracts.py lines 104-141): run the
contract loop against the alert, returning the updated engine and the list
of executed actions. -/
def evaluate (e : ContractEngine) (current_time : ℚ) (alert_type : String)
    (confidence : ℚ) (source_ip : String) : ContractEngine × List ExecutedAction :=
  let r := evalLoop current_time alert_type confidence source_ip
    e.contracts e.blocked_ips e.rate_limited e.action_history []
  ({ contracts := r.1
     action_history := r.2.2.2.1
     blocked_ips := r.2.1
     rate_limited := r.2.2.1 }, r.2.2.2.2)

/-- Python `evaluate` called without its `source_ip` argument: the source
declares the default value `source_ip: str = "unknown"` (line 104). -/
def evaluateDefault (e : ContractEngine) (current_time : ℚ) (alert_type : String)
    (confidence : ℚ) : ContractEngine × List ExecutedAction :=
  evaluate e current_time alert_type confidence "unknown"

/-- The default contracts installed by `ContractEngine.__init__`
(contracts.py lines 73-95). -/
def initialContracts : List Contract :=
  [ { name := "Auto-Block High Threat", action := ActionType.BLOCK_IP,
      trigger := TriggerType.HIGH_CONFIDENCE, threshold := 15/100,
      cooldown := 120, enabled := true, last_triggered := 0 },
    { name := "Rate Limit on Anomaly", action := ActionType.RATE_LIMIT,
      trigger := TriggerType.ANOMALY_DETECTED, threshold := 5/100,
      cooldown := 30, enabled := true, last_triggered := 0 },
    { name := "Network Alert Broadcast", action := ActionType.ALERT_NETWORK,
      trigger := TriggerType.ANOMALY_DETECTED, threshold := 0,
      cooldown := 10, enabled := true, last_triggered := 0 } ]

/-- A fresh engine, as built by `ContractEngine.__init__` (lines 71-102). -/
def initEngine : ContractEngine :=
  { contracts := initialContracts
    action_history := []
    blocked_ips := ∅
    rate_limited := [] }

/-- One entry of the `recent_actions` list of `get_status` (contracts.py
lines 191-199). -/
structure RecentAction where
  contract : String
  action : String
  time : ℚ
  details : Details
deriving DecidableEq, Repr

/-- The dict returned by `get_status` (contracts.py lines 183-200).
`blocked_ips` is `list(self.blocked_ips)` in the source; a Python set has
no specified iteration order, so the field is modelled as the set itself. -/
structure Status where
  total_contracts : ℕ
  enabled_contracts : ℕ
  blocked_ips : Finset String
  rate_limited_count : ℕ
  total_actions_executed : ℕ
  recent_actions : List RecentAction
deriving DecidableEq

/-- The per-record projection used in `get_status`'s `recent_actions`
comprehension. -/
def toRecent (a : ExecutedAction) : RecentAction :=
  { contract := a.contract_name
    action := a.action.value
    time := a.timestamp
    details := a.details }

/-- Python `ContractEngine.get_status` (contracts.py lines 183-200).
`self.action_history[-5:]` is the suffix of the last (up to) 5 records. -/
def get_status (e : ContractEngine) : Status :=
  { total_contracts := e.contracts.length
    enabled_contracts := e.contracts.countP (fun c => c.enabled)
    blocked_ips := e.blocked_ips
    rate_limited_count := e.rate_limited.length
    total_actions_executed := e.action_history.length
    recent_actions :=
      ((e.action_history.drop (e.action_history.length - 5)).map toRecent) }

/-- The condition under which the loop body of `evaluate` fires a contract:
enabled, cooldown elapsed (strict `<` on the skip test), trigger matched,
and the final `confidence >= threshold` gate. -/
def fires (now : ℚ) (alert_type : String) (confidence : ℚ) (c : Contract) : Bool :=
  c.enabled && !decide (now - c.last_triggered < (c.cooldown : ℚ))
    && trigger_matched c alert_type confidence && decide (c.threshold ≤ confidence)

/-- Per-contract stamping of `last_triggered` as performed by one pass of
the loop. -/
def stampIfFired (now : ℚ) (alert_type : String) (confidence : ℚ) (c : Contract) : Contract :=
  if fires now alert_type confidence c = true then { c with last_triggered := now } else c

/-- Cumulative effect of a list of fired contracts on the blocklist. -/
def applyBlocked (source_ip : String) (blocked : Finset String) (cs : List Contract) :
    Finset String :=
  cs.foldl (fun b c => if c.action = ActionType.BLOCK_IP then insert source_ip b else b) blocked

/-- Cumulative effect of a list of fired contracts on the rate-limit map. -/
def applyRL (source_ip : String) (now : ℚ) (rl : List (String × ℚ)) (cs : List Contract) :
    List (String × ℚ) :=
  cs.foldl
    (fun m c => if c.action = ActionType.RATE_LIMIT then dictInsert m source_ip (now + 300) else m)
    rl

/-- Trigger-kind predicate as worded in the specification: ANY_ANOMALY
(source name ANOMALY_DETECTED) matches iff the alert kind contains the
substring "ANOMALY"; HIGH_CONFIDENCE matches iff confidence is strictly
above the threshold; REPEATED_OFFENSE never matches. -/
def claimTriggerMatches (c : Contract) (alert_kind : String) (confidence : ℚ) : Bool :=
  match c.trigger with
  | TriggerType.ANOMALY_DETECTED => pyIn "ANOMALY" alert_kind
  | TriggerType.HIGH_CONFIDENCE => decide (c.threshold < confidence)
  | TriggerType.REPEATED_OFFENSE => false

/-- Firing predicate as worded in the specification: the trigger-kind
predicate holds and the final gate `confidence >= threshold` holds. -/
def claimFires (c : Contract) (alert_kind : String) (confidence : ℚ) : Bool :=
  claimTriggerMatches c alert_kind confidence && decide (c.threshold ≤ confidence)

/-- The blocklist component of `execute_action`: only BLOCK_IP touches it. -/
theorem execute_action_blocked (blocked : Finset String) (rl : List (String × ℚ))
    (c : Contract) (src : String) (conf now : ℚ) :
    (execute_action blocked rl c src conf now).1 =
      if c.action = ActionType.BLOCK_IP then insert src blocked else blocked := by
  cases h : c.action <;> simp [execute_action, h]

/-- The rate-limit component of `execute_action`: only RATE_LIMIT touches it. -/
theorem execute_action_rl (blocked : Finset String) (rl : List (String × ℚ))
    (c : Contract) (src : String) (conf now : ℚ) :
    (execute_action blocked rl c src conf now).2.1 =
      if c.action = ActionType.RATE_LIMIT then dictInsert rl src (now + 300) else rl := by
  cases h : c.action <;> simp [execute_action, h]

/-- The record component of `execute_action` is `execRecord`, independent of
the side-effect stores. -/
theorem execute_action_record (blocked : Finset String) (rl : List (String × ℚ))
    (c : Contract) (src : String) (conf now : ℚ) :
    (execute_action blocked rl c src conf now).2.2 = execRecord c src conf now := by
  cases h : c.action <;> simp [execute_action, h]

/-- Closed form of the `evaluate` loop: the contracts are stamped exactly
where they fire, the blocklist and rate-limit map receive the cumulative
effects of the fired contracts in order, and the history and the returned
list are extended by the fired contracts' records in store order. -/
theorem evalLoop_eq (now : ℚ) (alert_type : String) (confidence : ℚ) (source_ip : String)
    (cs : List Contract) :
    ∀ (blocked : Finset String) (rl : List (String × ℚ)) (hist ex : List ExecutedAction),
      evalLoop now alert_type confidence source_ip cs blocked rl hist ex =
        (cs.map (stampIfFired now alert_type confidence),
         applyBlocked source_ip blocked (cs.filter (fires now alert_type confidence)),
         applyRL source_ip now rl (cs.filter (fires now alert_type confidence)),
         hist ++ (cs.filter (fires now alert_type confidence)).map
           (fun c => execRecord c source_ip confidence now),
         ex ++ (cs.filter (fires now alert_type confidence)).map
           (fun c => execRecord c source_ip confidence now)) := by
  induction cs with
  | nil => intro blocked rl hist ex; simp [evalLoop, applyBlocked, applyRL]
  | cons c rest ih =>
    intro blocked rl hist ex
    by_cases h1 : c.enabled = false
    · have hf : fires now alert_type confidence c = false := by simp [fires, h1]
      simp [evalLoop, h1, ih, List.filter_cons, hf, stampIfFired]
    · have he : c.enabled = true := by simpa using h1
      by_cases h2 : now - c.last_triggered < (c.cooldown : ℚ)
      · have hf : fires now alert_type confidence c = false := by simp [fires, h2]
        simp [evalLoop, h1, h2, ih, List.filter_cons, hf, stampIfFired]
      · by_cases h3 : trigger_matched c alert_type confidence = true ∧ c.threshold ≤ confidence
        · have hf : fires now alert_type confidence c = true := by
            simp [fires, he, h2, h3.1, h3.2]
          simp [evalLoop, h1, h2, h3, ih, List.filter_cons, hf, stampIfFired,
            fireDone, fireMid, execute_action_blocked, execute_action_rl,
            execute_action_record, applyBlocked, applyRL]
        · have hf : fires now alert_type confidence c = false := by
            rcases Decidable.not_and_iff_or_not.mp h3 with h | h
            · have ht : trigger_matched c alert_type confidence = false := by simpa using h
              simp [fires, ht]
            · simp [fires, h]
          simp [evalLoop, h1, h2, h3, ih, List.filter_cons, hf, stampIfFired]

/-- The firing condition of the source's loop coincides pointwise with the
claim-worded predicate, conjoined with the enabled and cooldown checks. -/
theorem fires_eq_claim (now : ℚ) (alert_type : String) (confidence : ℚ) (c : Contract) :
    fires now alert_type confidence c =
      (c.enabled && !decide (now - c.last_triggered < (c.cooldown : ℚ))
        && claimFires c alert_type confidence) := by
  cases h : c.trigger <;>
    simp [fires, claimFires, claimTriggerMatches, trigger_matched, h, Bool.and_assoc]

/-- Unfolding of `applyBlocked` on a cons cell. -/
theorem applyBlocked_cons (src : String) (b : Finset String) (c : Contract) (t : List Contract) :
    applyBlocked src b (c :: t) =
      applyBlocked src (if c.action = ActionType.BLOCK_IP then insert src b else b) t := rfl

/-- Unfolding of `applyRL` on a cons cell. -/
theorem applyRL_cons (src : String) (now : ℚ) (m : List (String × ℚ)) (c : Contract)
    (t : List Contract) :
    applyRL src now m (c :: t) =
      applyRL src now
        (if c.action = ActionType.RATE_LIMIT then dictInsert m src (now + 300) else m) t := rfl

/-- Unfolding of `dictGet` on a cons cell. -/
theorem dictGet_cons (p : String × ℚ) (t : List (String × ℚ)) (k : String) :
    dictGet (p :: t) k = if p.1 = k then some p.2 else dictGet t k := by
  by_cases hp : p.1 = k
  · rw [dictGet, List.find?_cons_of_pos _ (by simpa using hp), if_pos hp, Option.map_some']
  · rw [dictGet, List.find?_cons_of_neg _ (by simpa using hp), if_neg hp, dictGet]

/-- Unfolding of `dictInsert` on a cons cell: overwrite in place at the head
when the head holds the key, otherwise keep the head and recurse. -/
theorem dictInsert_cons (p : String × ℚ) (t : List (String × ℚ)) (k : String) (v : ℚ) :
    dictInsert (p :: t) k v =
      if p.1 = k then (k, v) :: t.map (fun q => if q.1 = k then (k, v) else q)
      else p :: dictInsert t k v := by
  by_cases hp : p.1 = k
  · simp [dictInsert, hp]
  · by_cases ha : t.any (fun q => decide (q.1 = k)) = true
    · simp [dictInsert, hp, ha]
    · simp [dictInsert, hp, ha]

/-- Overwriting all occurrences of one key does not affect lookups at a
different key. -/
theorem dictGet_map_overwrite (t : List (String × ℚ)) (k k2 : String) (v : ℚ)
    (hk : k2 ≠ k) :
    dictGet (t.map (fun q => if q.1 = k then (k, v) else q)) k2 = dictGet t k2 := by
  induction t with
  | nil => rfl
  | cons q t ih =>
    rw [List.map_cons, dictGet_cons, dictGet_cons]
    by_cases hq : q.1 = k
    · have h1 : ¬((k, v).1 = k2) := fun h => hk h.symm
      have h2 : ¬(q.1 = k2) := fun h => hk (by rw [← h]; exact hq)
      rw [if_pos hq, if_neg h1, if_neg h2, ih]
    · rw [if_neg hq, ih]

/-- Looking up the freshly written key after a dict overwrite returns the new
value. -/
theorem dictGet_dictInsert_self (m : List (String × ℚ)) (k : String) (v : ℚ) :
    dictGet (dictInsert m k v) k = some v := by
  induction m with
  | nil => rw [show dictInsert [] k v = [(k, v)] from rfl, dictGet_cons]; simp
  | cons p t ih =>
    rw [dictInsert_cons]
    by_cases hp : p.1 = k
    · rw [if_pos hp, dictGet_cons]; simp
    · rw [if_neg hp, dictGet_cons, if_neg hp]; exact ih

/-- A dict overwrite at one key leaves lookups at every other key unchanged. -/
theorem dictGet_dictInsert_ne (m : List (String × ℚ)) (k k2 : String) (v : ℚ)
    (hk : k2 ≠ k) : dictGet (dictInsert m k v) k2 = dictGet m k2 := by
  induction m with
  | nil =>
    rw [show dictInsert [] k v = [(k, v)] from rfl, dictGet_cons,
      if_neg (fun h : (k, v).1 = k2 => hk h.symm)]
  | cons p t ih =>
    rw [dictInsert_cons]
    by_cases hp : p.1 = k
    · have h1 : ¬((k, v).1 = k2) := fun h => hk h.symm
      have h2 : ¬(p.1 = k2) := fun h => hk (by rw [← h]; exact hp)
      rw [if_pos hp, dictGet_cons, if_neg h1, dictGet_cons, if_neg h2]
      exact dictGet_map_overwrite t k k2 v hk
    · rw [if_neg hp, dictGet_cons, dictGet_cons, ih]

/-- Once the rate-limit map holds `now + 300` at the source key, applying any
further fired contracts keeps that value (every later write at the key
writes the same value again). -/
theorem applyRL_lookup_preserved (src : String) (now : ℚ) (cs : List Contract) :
    ∀ m, dictGet m src = some (now + 300) →
      dictGet (applyRL src now m cs) src = some (now + 300) := by
  induction cs with
  | nil => intro m h; simpa [applyRL] using h
  | cons c t ih =>
    intro m h
    rw [applyRL_cons]
    by_cases hc : c.action = ActionType.RATE_LIMIT
    · exact ih _ (by simp [hc, dictGet_dictInsert_self])
    · exact ih _ (by simp [hc, h])

/-- If some fired contract is a RATE_LIMIT, the final map holds `now + 300`
at the source key, whatever value was there before. -/
theorem applyRL_lookup_of_mem (src : String) (now : ℚ) (cs : List Contract) :
    ∀ m, (∃ c ∈ cs, c.action = ActionType.RATE_LIMIT) →
      dictGet (applyRL src now m cs) src = some (now + 300) := by
  induction cs with
  | nil => intro m h; simp at h
  | cons c t ih =>
    intro m h
    rw [applyRL_cons]
    by_cases hr : ∃ c2 ∈ t, c2.action = ActionType.RATE_LIMIT
    · exact ih _ hr
    · have hc : c.action = ActionType.RATE_LIMIT := by
        rcases h with ⟨d, hd, ha⟩
        rcases List.mem_cons.mp hd with rfl | hm
        · exact ha
        · exact absurd ⟨d, hm, ha⟩ hr
      rw [if_pos hc]
      exact applyRL_lookup_preserved src now t _ (dictGet_dictInsert_self _ _ _)

/-- Applying fired contracts never touches rate-limit entries of other keys. -/
theorem applyRL_lookup_ne (src : String) (now : ℚ) (k : String) (hk : k ≠ src)
    (cs : List Contract) :
    ∀ m, dictGet (applyRL src now m cs) k = dictGet m k := by
  induction cs with
  | nil => intro m; simp [applyRL]
  | cons c t ih =>
    intro m
    rw [applyRL_cons]
    by_cases hc : c.action = ActionType.RATE_LIMIT
    · rw [ih]; simp [hc, dictGet_dictInsert_ne _ _ _ _ hk]
    · rw [ih]; simp [hc]

/-- Applying fired contracts never changes blocklist membership of keys
other than the source. -/
theorem mem_applyBlocked_ne (src : String) (k : String) (hk : k ≠ src) (cs : List Contract) :
    ∀ b, (k ∈ applyBlocked src b cs ↔ k ∈ b) := by
  induction cs with
  | nil => intro b; simp [applyBlocked]
  | cons c t ih =>
    intro b
    rw [applyBlocked_cons]
    by_cases hc : c.action = ActionType.BLOCK_IP
    · rw [ih]; simp [hc, hk]
    · rw [ih]; simp [hc]

/-- Closed form of `evaluate` in terms of the fired-contract list. -/
theorem evaluate_eq (e : ContractEngine) (now : ℚ) (alert_type : String)
    (confidence : ℚ) (source_ip : String) :
    evaluate e now alert_type confidence source_ip =
      ({ contracts := e.contracts.map (stampIfFired now alert_type confidence)
         action_history := e.action_history ++
           (e.contracts.filter (fires now alert_type confidence)).map
             (fun c => execRecord c source_ip confidence now)
         blocked_ips := applyBlocked source_ip e.blocked_ips
           (e.contracts.filter (fires now alert_type confidence))
         rate_limited := applyRL source_ip now e.rate_limited
           (e.contracts.filter (fires now alert_type confidence)) },
       (e.contracts.filter (fires now alert_type confidence)).map
         (fun c => execRecord c source_ip confidence now)) := by
  simp [evaluate, evalLoop_eq]

/-- C1: for every call `evaluate(alert_kind, confidence, source_id)` and
every enabled, off-cooldown rule, the rule fires (produces a record in the
returned sequence) if and only if its trigger predicate matches and
`confidence >= threshold`, where ANY_ANOMALY matches iff the alert kind
contains the substring "ANOMALY" (case-sensitive), HIGH_CONFIDENCE matches
iff `confidence > threshold` (strict), and REPEATED_OFFENSE never matches.
Stated as a full characterization of the returned sequence: it consists of
exactly the records of the enabled, off-cooldown rules satisfying the
claim-worded predicate `claimFires`, in store order. -/
theorem evaluate_fires_iff (e : ContractEngine) (now : ℚ) (alert_kind : String)
    (confidence : ℚ) (source_id : String) :
    (evaluate e now alert_kind confidence source_id).2 =
      (e.contracts.filter (fun c => c.enabled
          && !decide (now - c.last_triggered < (c.cooldown : ℚ))
          && claimFires c alert_kind confidence)).map
        (fun c => execRecord c source_id confidence now) := by
  rw [evaluate_eq]
  have h : fires now alert_kind confidence = fun c => c.enabled
      && !decide (now - c.last_triggered < (c.cooldown : ℚ))
      && claimFires c alert_kind confidence :=
    funext (fun c => fires_eq_claim now alert_kind confidence c)
  rw [h]

/-- C2: for a rule with cooldown C that fired at time T (so its
`last_triggered` is T), a later qualifying event strictly before `T + C`
does not fire it, and a qualifying event at exactly `T + C` does fire it
(the skip test is the strict `now - last_triggered < cooldown`). -/
theorem cooldown_strict_boundary (c : Contract) (T t : ℚ) (alert_kind : String)
    (confidence : ℚ) (source_id : String) (blocked : Finset String)
    (rl : List (String × ℚ)) (hist : List ExecutedAction)
    (hen : c.enabled = true)
    (htrig : trigger_matched c alert_kind confidence = true)
    (hgate : c.threshold ≤ confidence) :
    (t < T + (c.cooldown : ℚ) →
      (evaluate ⟨[{ c with last_triggered := T }], hist, blocked, rl⟩ t
        alert_kind confidence source_id).2 = [])
    ∧ (evaluate ⟨[{ c with last_triggered := T }], hist, blocked, rl⟩
        (T + (c.cooldown : ℚ)) alert_kind confidence source_id).2 =
      [execRecord { c with last_triggered := T } source_id confidence
        (T + (c.cooldown : ℚ))] := by
  constructor
  · intro hlt
    rw [evaluate_eq]
    have hcool : t - T < (c.cooldown : ℚ) := by linarith
    have hf : fires t alert_kind confidence { c with last_triggered := T } = false := by
      simp [fires, hcool]
    simp [List.filter_cons, hf]
  · rw [evaluate_eq]
    have hcool : ¬(T + (c.cooldown : ℚ) - T < (c.cooldown : ℚ)) := by
      intro h; linarith
    have hf : fires (T + (c.cooldown : ℚ)) alert_kind confidence
        { c with last_triggered := T } = true := by
      have heq : fires (T + (c.cooldown : ℚ)) alert_kind confidence
          { c with last_triggered := T } =
          (c.enabled && !decide (T + (c.cooldown : ℚ) - T < (c.cooldown : ℚ))
            && trigger_matched c alert_kind confidence
            && decide (c.threshold ≤ confidence)) := rfl
      rw [heq, hen, htrig]
      simp [hcool, hgate]
    simp [List.filter_cons, hf]

/-- A quarantine rule with an always-matching trigger, used to instantiate
the cooldown-boundary theorem. -/
def c2Rule : Contract :=
  { name := "q", action := ActionType.QUARANTINE,
    trigger := TriggerType.ANOMALY_DETECTED, threshold := 0,
    cooldown := 10, enabled := true, last_triggered := 0 }

/-- Witness for C2: the rule fired at time 100 with cooldown 10 does not
re-fire at 105 and does fire at exactly 110. -/
theorem cooldown_strict_boundary_witness :
    c2Rule.enabled = true
    ∧ trigger_matched c2Rule "ANOMALY" (1/2) = true
    ∧ c2Rule.threshold ≤ (1/2 : ℚ)
    ∧ (evaluate ⟨[{ c2Rule with last_triggered := 100 }], [], ∅, []⟩ 105
        "ANOMALY" (1/2) "s").2 = []
    ∧ (evaluate ⟨[{ c2Rule with last_triggered := 100 }], [], ∅, []⟩
        (100 + (c2Rule.cooldown : ℚ)) "ANOMALY" (1/2) "s").2 =
      [execRecord { c2Rule with last_triggered := 100 } "s" (1/2)
        (100 + (c2Rule.cooldown : ℚ))] :=
  ⟨rfl, by decide, by norm_num [c2Rule],
    (cooldown_strict_boundary c2Rule 100 105 "ANOMALY" (1/2) "s" ∅ [] []
      rfl (by decide) (by norm_num [c2Rule])).1 (by norm_num [c2Rule]),
    (cooldown_strict_boundary c2Rule 100 105 "ANOMALY" (1/2) "s" ∅ [] []
      rfl (by decide) (by norm_num [c2Rule])).2⟩

/-- A block rule, used for the BLOCK_IP claims. -/
def c3Rule : Contract :=
  { name := "b", action := ActionType.BLOCK_IP,
    trigger := TriggerType.HIGH_CONFIDENCE, threshold := 15/100,
    cooldown := 120, enabled := true, last_triggered := 0 }

/-- C3 (counterexample): the claim says each firing updates the rule's
`last_triggered` before the action's side effects complete. In the source
the `_execute_action` call on line 136 fully completes its side effects
first, and the stamp on line 137 runs afterwards. At the sequence point
between the two lines (`fireMid`), the blocklist already contains the
source while `last_triggered` still holds its old value 0, different from
the evaluation time 1000 — so the update did not precede the side
effects. -/
theorem stamp_order_counterexample :
    "10.0.0.6" ∈ (fireMid ∅ [] c3Rule "10.0.0.6" (2/10) 1000).1
    ∧ (fireMid ∅ [] c3Rule "10.0.0.6" (2/10) 1000).2.2.2.last_triggered = 0
    ∧ (0 : ℚ) ≠ 1000 := by decide

/-- C3 (amended): for every firing of a rule during `evaluate`, the rule's
`last_triggered` is updated exactly once, set to the evaluation time, and
the update is applied immediately after the action's side effects complete
(the executor runs on the un-stamped contract and the stamp follows it,
before the record is appended). The first conjunct states exactly-once
stamping at the evaluation time over the whole contract list; the second
states that the fire step is the execute-then-stamp composition. -/
theorem stamp_once_at_dispatch (e : ContractEngine) (now : ℚ) (alert_kind : String)
    (confidence : ℚ) (source_id : String) :
    (evaluate e now alert_kind confidence source_id).1.contracts =
      e.contracts.map (fun c =>
        if fires now alert_kind confidence c = true then { c with last_triggered := now }
        else c)
    ∧ ∀ (blocked : Finset String) (rl : List (String × ℚ)) (c : Contract),
        fireDone blocked rl c source_id confidence now =
          ((fireMid blocked rl c source_id confidence now).1,
           (fireMid blocked rl c source_id confidence now).2.1,
           (fireMid blocked rl c source_id confidence now).2.2.1,
           { (fireMid blocked rl c source_id confidence now).2.2.2 with
               last_triggered := now }) := by
  refine ⟨?_, fun blocked rl c => rfl⟩
  rw [evaluate_eq]
  simp [stampIfFired]

/-- C4: for well-formed input, `evaluate` is a total function (it is defined
as one here, mirroring the source, whose loop body cannot raise); and when
the confidence is strictly below the threshold of every enabled rule, it
returns an empty sequence and leaves the whole engine state — contracts
with their `last_triggered`, blocklist, rate-limit map and history —
unchanged. -/
theorem below_threshold_no_change (e : ContractEngine) (now : ℚ) (alert_kind : String)
    (confidence : ℚ) (source_id : String)
    (h : ∀ c ∈ e.contracts, c.enabled = true → confidence < c.threshold) :
    evaluate e now alert_kind confidence source_id = (e, []) := by
  have hff : ∀ c ∈ e.contracts, fires now alert_kind confidence c = false := by
    intro c hc
    by_cases he : c.enabled = true
    · have hlt := h c hc he
      simp [fires, not_le.mpr hlt]
    · have he2 : c.enabled = false := by simpa using he
      simp [fires, he2]
  have hfired : e.contracts.filter (fires now alert_kind confidence) = [] := by
    rw [List.filter_eq_nil_iff]
    intro c hc
    simp [hff c hc]
  have hmap : ∀ l : List Contract, (∀ c ∈ l, fires now alert_kind confidence c = false) →
      l.map (stampIfFired now alert_kind confidence) = l := by
    intro l
    induction l with
    | nil => intro _; rfl
    | cons a t ih =>
      intro hl
      rw [List.map_cons, ih (fun c hc => hl c (List.mem_cons_of_mem a hc))]
      simp [stampIfFired, hl a (List.mem_cons_self a t)]
  rw [evaluate_eq, hfired, hmap e.contracts hff]
  simp [applyBlocked, applyRL]

/-- An engine with a single high-threshold rule, used to instantiate the
no-change theorem. -/
def c4Engine : ContractEngine :=
  { contracts :=
      [ { name := "hc", action := ActionType.BLOCK_IP,
          trigger := TriggerType.HIGH_CONFIDENCE, threshold := 1/2,
          cooldown := 60, enabled := true, last_triggered := 0 } ],
    action_history := [], blocked_ips := ∅, rate_limited := [] }

/-- Witness for C4: confidence 1/4 is below the only enabled rule's
threshold 1/2, so evaluation returns no records and the engine is
unchanged. -/
theorem below_threshold_no_change_witness :
    (∀ c ∈ c4Engine.contracts, c.enabled = true → (1/4 : ℚ) < c.threshold)
    ∧ evaluate c4Engine 50 "AI_ANOMALY_DETECTED" (1/4) "10.0.0.9" = (c4Engine, []) :=
  ⟨by decide,
    below_threshold_no_change c4Engine 50 "AI_ANOMALY_DETECTED" (1/4) "10.0.0.9" (by decide)⟩

/-- C5: whenever a rule with action RATE_LIMIT fires at time `now` for
`source_id`, the rate-limit map entry for `source_id` ends up `now + 300`,
whatever value (if any) it held before — last-writer-wins, not
max/extend. -/
theorem rate_limit_overwrite (e : ContractEngine) (now : ℚ) (alert_kind : String)
    (confidence : ℚ) (source_id : String)
    (h : ∃ c ∈ e.contracts, fires now alert_kind confidence c = true
      ∧ c.action = ActionType.RATE_LIMIT) :
    dictGet (evaluate e now alert_kind confidence source_id).1.rate_limited source_id
      = some (now + 300) := by
  rw [evaluate_eq]
  apply applyRL_lookup_of_mem
  rcases h with ⟨c, hc, hf, ha⟩
  exact ⟨c, List.mem_filter.mpr ⟨hc, hf⟩, ha⟩

/-- The default engine with a pre-existing (larger) rate-limit expiry for
the source, to exhibit last-writer-wins overwrite. -/
def c5Engine : ContractEngine :=
  { initEngine with rate_limited := [("10.0.0.5", 99999)] }

/-- Witness for C5: the default "Rate Limit on Anomaly" rule fires on an
anomaly event with confidence 1/10 at time 1000, and the prior expiry
99999 is overwritten down to 1300 = 1000 + 300. -/
theorem rate_limit_overwrite_witness :
    (∃ c ∈ c5Engine.contracts, fires 1000 "AI_ANOMALY_DETECTED" (1/10) c = true
      ∧ c.action = ActionType.RATE_LIMIT)
    ∧ dictGet (evaluate c5Engine 1000 "AI_ANOMALY_DETECTED" (1/10) "10.0.0.5").1.rate_limited
        "10.0.0.5" = some (1000 + 300) :=
  ⟨by decide,
    rate_limit_overwrite c5Engine 1000 "AI_ANOMALY_DETECTED" (1/10) "10.0.0.5" (by decide)⟩

/-- C6: executing a BLOCK_SOURCE (source name BLOCK_IP) action is
idempotent on the blocklist: executing it twice yields the same blocklist
as once; executing it when the source is already blocked leaves the
blocklist unchanged; and membership afterwards is exactly the old
membership plus the source. -/
theorem block_source_idempotent (blocked : Finset String) (rl : List (String × ℚ))
    (c : Contract) (source_id : String) (confidence now : ℚ)
    (h : c.action = ActionType.BLOCK_IP) :
    ((execute_action ((execute_action blocked rl c source_id confidence now).1) rl c
        source_id confidence now).1
      = (execute_action blocked rl c source_id confidence now).1)
    ∧ (source_id ∈ blocked → (execute_action blocked rl c source_id confidence now).1 = blocked)
    ∧ ∀ k, k ∈ (execute_action blocked rl c source_id confidence now).1 ↔
        k = source_id ∨ k ∈ blocked := by
  simp [execute_action_blocked, h, Finset.insert_eq_self]

/-- Witness for C6: blocking an already-blocked source changes nothing, and
a double block equals a single block. -/
theorem block_source_idempotent_witness :
    c3Rule.action = ActionType.BLOCK_IP
    ∧ ((execute_action ((execute_action {"10.0.0.7"} [] c3Rule "10.0.0.7" 1 5).1) [] c3Rule
        "10.0.0.7" 1 5).1 = (execute_action {"10.0.0.7"} [] c3Rule "10.0.0.7" 1 5).1)
    ∧ (execute_action {"10.0.0.7"} [] c3Rule "10.0.0.7" 1 5).1 = {"10.0.0.7"}
    ∧ ("10.0.0.7" ∈ (execute_action {"10.0.0.7"} [] c3Rule "10.0.0.7" 1 5).1 ↔
        ("10.0.0.7" : String) = "10.0.0.7" ∨ "10.0.0.7" ∈ ({"10.0.0.7"} : Finset String)) :=
  ⟨rfl,
   (block_source_idempotent {"10.0.0.7"} [] c3Rule "10.0.0.7" 1 5 rfl).1,
   (block_source_idempotent {"10.0.0.7"} [] c3Rule "10.0.0.7" 1 5 rfl).2.1 (by decide),
   (block_source_idempotent {"10.0.0.7"} [] c3Rule "10.0.0.7" 1 5 rfl).2.2 "10.0.0.7"⟩

/-- C7: executing a QUARANTINE or ALERT_PEERS (source name ALERT_NETWORK)
action produces a record only: the blocklist and the rate-limit map are
exactly as before. -/
theorem record_only_actions_frame (blocked : Finset String) (rl : List (String × ℚ))
    (c : Contract) (source_id : String) (confidence now : ℚ)
    (h : c.action = ActionType.QUARANTINE ∨ c.action = ActionType.ALERT_NETWORK) :
    (execute_action blocked rl c source_id confidence now).1 = blocked
    ∧ (execute_action blocked rl c source_id confidence now).2.1 = rl := by
  rcases h with h | h <;> simp [execute_action, h]

/-- A quarantine rule used to instantiate the frame theorem. -/
def c7Rule : Contract :=
  { name := "quar", action := ActionType.QUARANTINE,
    trigger := TriggerType.ANOMALY_DETECTED, threshold := 0,
    cooldown := 10, enabled := true, last_triggered := 0 }

/-- Witness for C7: a quarantine execution leaves a non-trivial blocklist
and rate-limit map untouched. -/
theorem record_only_actions_frame_witness :
    (c7Rule.action = ActionType.QUARANTINE ∨ c7Rule.action = ActionType.ALERT_NETWORK)
    ∧ (execute_action {"a"} [("b", 9)] c7Rule "src" 1 5).1 = {"a"}
    ∧ (execute_action {"a"} [("b", 9)] c7Rule "src" 1 5).2.1 = [("b", 9)] :=
  ⟨Or.inl rfl,
   (record_only_actions_frame {"a"} [("b", 9)] c7Rule "src" 1 5 (Or.inl rfl)).1,
   (record_only_actions_frame {"a"} [("b", 9)] c7Rule "src" 1 5 (Or.inl rfl)).2⟩

/-- C8: the status snapshot reports the total rule count, the enabled rule
count, the blocklist contents, the number of rate-limit entries, the total
number of actions ever executed (the history length), and the most recent
(up to) 5 execution records in order — and `get_status` is a pure read: it
is a plain function of the engine that returns no modified engine. -/
theorem get_status_spec (e : ContractEngine) :
    (get_status e).total_contracts = e.contracts.length
    ∧ (get_status e).enabled_contracts = (e.contracts.filter (fun c => c.enabled)).length
    ∧ (get_status e).blocked_ips = e.blocked_ips
    ∧ (get_status e).rate_limited_count = e.rate_limited.length
    ∧ (get_status e).total_actions_executed = e.action_history.length
    ∧ (get_status e).recent_actions =
        (e.action_history.map toRecent).drop (e.action_history.length - 5)
    ∧ (get_status e).recent_actions.length = min 5 e.action_history.length := by
  refine ⟨rfl, ?_, rfl, rfl, rfl, ?_, ?_⟩
  · simp [get_status, List.countP_eq_length_filter]
  · simp [get_status, List.map_drop]
  · simp [get_status]
    omega

/-- An always-firing alert rule for the default-source claim. -/
def c10Rule : Contract :=
  { name := "alert", action := ActionType.ALERT_NETWORK,
    trigger := TriggerType.ANOMALY_DETECTED, threshold := 0,
    cooldown := 10, enabled := true, last_triggered := 0 }

/-- An engine with pre-existing side-effect state at a key other than
"unknown", for the default-source claim. -/
def c10Engine : ContractEngine :=
  { contracts := [c10Rule],
    action_history := [],
    blocked_ips := {"10.9.9.9"},
    rate_limited := [("10.9.9.9", 50)] }

/-- C10: calling `evaluate` without a source identifier behaves exactly as
calling it with "unknown" (the declared default): every produced record
carries source_ip "unknown" in its details, and blocklist or rate-limit
mutations touch only the key "unknown" (membership and lookups at every
other key are unchanged). -/
theorem default_source_unknown (e : ContractEngine) (now : ℚ) (alert_kind : String)
    (confidence : ℚ) :
    evaluateDefault e now alert_kind confidence = evaluate e now alert_kind confidence "unknown"
    ∧ (∀ r ∈ (evaluateDefault e now alert_kind confidence).2, r.details.source_ip = "unknown")
    ∧ ∀ k, k ≠ "unknown" →
        ((k ∈ (evaluateDefault e now alert_kind confidence).1.blocked_ips ↔ k ∈ e.blocked_ips)
        ∧ dictGet (evaluateDefault e now alert_kind confidence).1.rate_limited k
            = dictGet e.rate_limited k) := by
  refine ⟨rfl, ?_, ?_⟩
  · intro r hr
    rw [evaluateDefault, evaluate_eq] at hr
    simp only [List.mem_map] at hr
    obtain ⟨c, _, hrec⟩ := hr
    rw [← hrec]
    rfl
  · intro k hk
    rw [evaluateDefault, evaluate_eq]
    exact ⟨mem_applyBlocked_ne "unknown" k hk _ _,
      applyRL_lookup_ne "unknown" now k hk _ _⟩

/-- Witness for C10: on an engine holding state for "10.9.9.9", a
default-source call produces a record carrying "unknown" and leaves the
"10.9.9.9" entries untouched. -/
theorem default_source_unknown_witness :
    execRecord c10Rule "unknown" 1 7000 ∈ (evaluateDefault c10Engine 7000 "ANOMALY" 1).2
    ∧ (execRecord c10Rule "unknown" 1 7000).details.source_ip = "unknown"
    ∧ ("10.9.9.9" : String) ≠ "unknown"
    ∧ ("10.9.9.9" ∈ (evaluateDefault c10Engine 7000 "ANOMALY" 1).1.blocked_ips ↔
        "10.9.9.9" ∈ c10Engine.blocked_ips)
    ∧ dictGet (evaluateDefault c10Engine 7000 "ANOMALY" 1).1.rate_limited "10.9.9.9"
        = dictGet c10Engine.rate_limited "10.9.9.9" :=
  ⟨by decide,
   (default_source_unknown c10Engine 7000 "ANOMALY" 1).2.1 _ (by decide),
   by decide,
   ((default_source_unknown c10Engine 7000 "ANOMALY" 1).2.2 "10.9.9.9" (by decide)).1,
   ((default_source_unknown c10Engine 7000 "ANOMALY" 1).2.2 "10.9.9.9" (by decide)).2⟩

end SentinelMesh
